import Mathlib

/-!
Verification development for the resticlib repository facade.

The definitions below are a shallow embedding of the Go sources:
the C boundary (handle registry in the cgo bridge), the path
selection filters used by backup and restore, the snapshot filter
and listing logic, the retention (forget) engine, prune, and check.
External collaborators (the storage backend, archiver, restorer,
checker, and Go standard-library calls whose results the facade
only consumes) are passed in as explicit parameters or modelled by
their documented contracts; each such spot is noted in a doc
comment.  Strings are embedded as Lean strings (sequences of
unicode scalar values); the sources only ever inspect them
byte-by-byte on ASCII data, where the two views agree.
-/

namespace Restic

/-- Path separator used by Go path/filepath on unix. -/
def sep : Char := '/'

/-- Scan loop of Go filepath.Match's scanChunk: walks the pattern after
leading stars were removed, collecting the literal chunk up to the next
star that is not inside a character class; a backslash escapes the next
character. Returns (chunk, rest of pattern). -/
def scanBody : List Char → Bool → List Char × List Char
  | [], _ => ([], [])
  | c :: cs, inr =>
    if c = '\\' then
      match cs with
      | [] => ([c], [])
      | d :: ds =>
        let r := scanBody ds inr
        (c :: d :: r.1, r.2)
    else if c = '[' then
      let r := scanBody cs true
      (c :: r.1, r.2)
    else if c = ']' then
      let r := scanBody cs false
      (c :: r.1, r.2)
    else if c = '*' then
      if inr then
        let r := scanBody cs inr
        (c :: r.1, r.2)
      else ([], c :: cs)
    else
      let r := scanBody cs inr
      (c :: r.1, r.2)

/-- Strips the leading run of stars from a pattern, reporting whether any
star was present (the star flag of Go filepath.Match's scanChunk). -/
def stripStars : List Char → Bool × List Char
  | [] => (false, [])
  | c :: cs =>
    if c = '*' then (true, (stripStars cs).2)
    else (false, c :: cs)

/-- scanChunk of Go filepath.Match: splits a pattern into the star flag,
the next literal chunk, and the remaining pattern. -/
def scanChunk (p : List Char) : Bool × List Char × List Char :=
  let s := stripStars p
  let r := scanBody s.2 false
  (s.1, r.1, r.2)

/-- getEsc of Go filepath.Match: reads one possibly-escaped character of a
character class. Returns none on a malformed class (Go's ErrBadPattern). -/
def getEsc : List Char → Option (Char × List Char)
  | [] => none
  | c :: cs =>
    if c = '-' ∨ c = ']' then none
    else if c = '\\' then
      match cs with
      | [] => none
      | d :: ds => if ds.isEmpty then none else some (d, ds)
    else
      if cs.isEmpty then none else some (c, cs)

/-- Range loop of the character-class case of Go filepath.Match's
matchChunk: parses all lo-hi ranges, accumulating whether the rune r
fell into any of them. Fuel bounds the recursion; every iteration
consumes at least one pattern character, so fuel = chunk length + 1
never runs out. -/
def matchRanges (fuel : Nat) (r : Char) (chunk : List Char) (m : Bool)
    (nrange : Nat) : Except Unit (Bool × List Char) :=
  match fuel with
  | 0 => Except.error ()
  | fuel + 1 =>
    match chunk with
    | ']' :: rest =>
      if 0 < nrange then Except.ok (m, rest)
      else Except.error ()
    | _ =>
      match getEsc chunk with
      | none => Except.error ()
      | some (lo, chunk1) =>
        match chunk1 with
        | '-' :: chunk2 =>
          match getEsc chunk2 with
          | none => Except.error ()
          | some (hi, chunk3) =>
            matchRanges fuel r chunk3 (m || decide (lo ≤ r ∧ r ≤ hi)) (nrange + 1)
        | _ =>
          matchRanges fuel r chunk1 (m || decide (lo ≤ r ∧ r ≤ lo)) (nrange + 1)

/-- matchChunk of Go filepath.Match: matches the literal chunk against the
start of s, continuing to parse the chunk after a mismatch so that
syntax errors are still detected (the failed flag), exactly as the Go
code does. Returns (rest of s, matched) or an error for a bad pattern. -/
def matchChunkGo (fuel : Nat) (chunk s : List Char) (failed : Bool) :
    Except Unit (List Char × Bool) :=
  match fuel with
  | 0 => Except.error ()
  | fuel + 1 =>
    match chunk with
    | [] => if failed then Except.ok ([], false) else Except.ok (s, true)
    | c :: rest =>
      let failed := failed || s.isEmpty
      if c = '[' then
        let rs :=
          if failed then (Char.ofNat 0, s)
          else
            match s with
            | [] => (Char.ofNat 0, ([] : List Char))
            | x :: xs => (x, xs)
        let nc :=
          match rest with
          | '^' :: more => (true, more)
          | _ => (false, rest)
        match matchRanges (nc.2.length + 1) rs.1 nc.2 false 0 with
        | Except.error _ => Except.error ()
        | Except.ok (m, chunk2) =>
          matchChunkGo fuel chunk2 rs.2 (failed || (m == nc.1))
      else if c = '?' then
        if failed then matchChunkGo fuel rest s failed
        else
          match s with
          | [] => matchChunkGo fuel rest [] true
          | x :: xs =>
            if x = sep then matchChunkGo fuel rest xs true
            else matchChunkGo fuel rest xs failed
      else if c = '\\' then
        match rest with
        | [] => Except.error ()
        | d :: more =>
          if failed then matchChunkGo fuel more s failed
          else
            match s with
            | [] => matchChunkGo fuel more [] true
            | x :: xs =>
              if d = x then matchChunkGo fuel more xs failed
              else matchChunkGo fuel more xs true
      else
        if failed then matchChunkGo fuel rest s failed
        else
          match s with
          | [] => matchChunkGo fuel rest [] true
          | x :: xs =>
            if c = x then matchChunkGo fuel rest xs failed
            else matchChunkGo fuel rest xs true

/-- Star loop of Go filepath.Match: after a chunk failed at the current
position, looks for a match of the chunk at every later position of the
name up to the next separator. Returns some t when a position matched
(t is the rest of the name), none when the loop was exhausted. -/
def starLoopGo (chunk restPat : List Char) : List Char → Except Unit (Option (List Char))
  | [] => Except.ok none
  | c :: cs =>
    if c = sep then Except.ok none
    else
      match matchChunkGo (chunk.length + 1) chunk cs false with
      | Except.error _ => Except.error ()
      | Except.ok (t, ok) =>
        if ok then
          if restPat.isEmpty && !t.isEmpty then starLoopGo chunk restPat cs
          else Except.ok (some t)
        else starLoopGo chunk restPat cs

/-- Final validation loop of Go filepath.Match: before returning a
non-match, checks the remaining pattern chunks for syntax errors by
matching them against the empty string. -/
def validateChunks (fuel : Nat) (p : List Char) : Except Unit Unit :=
  match fuel with
  | 0 => Except.error ()
  | fuel + 1 =>
    match p with
    | [] => Except.ok ()
    | _ =>
      let sc := scanChunk p
      match matchChunkGo (sc.2.1.length + 1) sc.2.1 [] false with
      | Except.error _ => Except.error ()
      | Except.ok _ => validateChunks fuel sc.2.2

/-- Outer loop of Go filepath.Match. Fuel bounds the recursion; every
iteration consumes at least one pattern character, so fuel = pattern
length + 1 never runs out. -/
def goMatchAux (fuel : Nat) (pattern name : List Char) : Except Unit Bool :=
  match fuel with
  | 0 => Except.error ()
  | fuel + 1 =>
    match pattern with
    | [] => Except.ok name.isEmpty
    | _ =>
      let sc := scanChunk pattern
      let star := sc.1
      let chunk := sc.2.1
      let rest := sc.2.2
      if star && chunk.isEmpty then
        Except.ok (! name.contains sep)
      else
        match matchChunkGo (chunk.length + 1) chunk name false with
        | Except.error _ => Except.error ()
        | Except.ok (t, ok) =>
          if ok && (t.isEmpty || !rest.isEmpty) then goMatchAux fuel rest t
          else if star then
            match starLoopGo chunk rest name with
            | Except.error _ => Except.error ()
            | Except.ok (some t2) => goMatchAux fuel rest t2
            | Except.ok none =>
              match validateChunks (rest.length + 1) rest with
              | Except.error _ => Except.error ()
              | Except.ok _ => Except.ok false
          else
            match validateChunks (rest.length + 1) rest with
            | Except.error _ => Except.error ()
            | Except.ok _ => Except.ok false

/-- Go filepath.Match over character lists: matched or ErrBadPattern. -/
def goMatch (pattern name : List Char) : Except Unit Bool :=
  goMatchAux (pattern.length + 1) pattern name

/-- filepath.Match as used at every call site of the sources:
the error is discarded, so a bad pattern counts as a non-match
(the Go calls read `matched, _ = filepath.Match(...)`). -/
def goMatchStr (pattern name : String) : Bool :=
  match goMatch pattern.data name.data with
  | Except.ok b => b
  | Except.error _ => false

/-- Trailing-separator stripping loop of Go filepath.Base. -/
def dropEndSeps (l : List Char) : List Char :=
  (l.reverse.dropWhile (fun c => c = sep)).reverse

/-- Suffix after the last separator, as in Go filepath.Base (the whole
string when it has no separator). -/
def afterLastSep (l : List Char) : List Char :=
  (l.reverse.takeWhile (fun c => c ≠ sep)).reverse

/-- Go filepath.Base: "." for the empty path, trailing separators
stripped, everything up to the last separator dropped, "/" when the
path was all separators. -/
def goBase (path : String) : String :=
  if path.data = [] then "."
  else
    let p1 := dropEndSeps path.data
    let p2 := afterLastSep p1
    if p2 = [] then String.mk [sep] else String.mk p2

/-! ### Path selection filters (backup SelectByName and restore SelectFilter) -/

/-- Include loop of the backup arch.SelectByName closure: iterates the
include patterns, matching each only against the final path component
(filepath.Base of the item), breaking at the first match. -/
def backupIncludeLoop : List String → String → Bool
  | [], _ => false
  | p :: ps, item =>
    if goMatchStr p (goBase item) then true else backupIncludeLoop ps item

/-- Exclude loop of the backup arch.SelectByName closure: returns whether
some exclude pattern matches the final path component of the item. -/
def backupExcludeLoop : List String → String → Bool
  | [], _ => false
  | p :: ps, item =>
    if goMatchStr p (goBase item) then true else backupExcludeLoop ps item

/-- The arch.SelectByName closure installed by Backup: include patterns
are applied first (if any), then exclude patterns; every pattern is
matched against filepath.Base(item) only. -/
def backupSelectByName (includes excludes : List String) (item : String) : Bool :=
  if includes.length > 0 && !backupIncludeLoop includes item then false
  else if backupExcludeLoop excludes item then false
  else true

/-- Include/exclude matching loop of the restore selectFilter closure:
each pattern is matched first against the full item path and then
against its final path component, breaking at the first match. -/
def restoreMatchLoop : List String → String → Bool
  | [], _ => false
  | p :: ps, item =>
    if goMatchStr p item then true
    else if goMatchStr p (goBase item) then true
    else restoreMatchLoop ps item

/-- The selectFilter closure installed by Restore: with a non-empty
include list and no include match the item is skipped but children may
still be selected (false, true); a matching exclude pattern prunes the
item and its subtree (false, false); otherwise (true, true). -/
def restoreSelectFilter (includePatterns excludePatterns : List String)
    (item : String) (isDir : Bool) : Bool × Bool :=
  if includePatterns.length > 0 && !restoreMatchLoop includePatterns item then
    (false, true)
  else if restoreMatchLoop excludePatterns item then (false, false)
  else (true, true)

/-! ### Snapshot data model and snapshot filtering (snapshots.go) -/

/-- Tests whether the second list occurs as a leading segment of the first. -/
def listStartsWith : List Char → List Char → Bool
  | _, [] => true
  | [], _ :: _ => false
  | a :: as, b :: bs => a = b && listStartsWith as bs

/-- Go strings.Contains: sub occurs somewhere inside s. -/
def goContains : List Char → List Char → Bool
  | [], sub => sub.isEmpty
  | c :: rest, sub => listStartsWith (c :: rest) sub || goContains rest sub

/-- Go strings.Contains over strings. -/
def goContainsStr (s sub : String) : Bool := goContains s.data sub.data

/-- Snapshot metadata as read by the facade. Creation time is embedded as
an integer instant (Go time.Time compared with Before/After, which are
strict order comparisons on instants). -/
structure Snap where
  id : String
  time : Int
  paths : List String
  hostname : String
  username : String
  tags : List String
deriving DecidableEq, Repr

/-- SnapshotFilter of the library API. Limit is a Go int. -/
structure SnapshotFilter where
  hosts : List String
  paths : List String
  tags : List String
  since : Option String
  untilT : Option String
  limit : Int
deriving DecidableEq, Repr

/-- Until-bound step of matchesFilter: the bound applies only when the
text parses (time.Parse of the stdlib is passed in as parseTime; the Go
code keeps the bound only when err == nil). -/
def matchesUntil (parseTime : String → Option Int) (sn : Snap)
    (filter : SnapshotFilter) : Bool :=
  match filter.untilT with
  | some u =>
    match parseTime u with
    | some ut => if ut < sn.time then false else true
    | none => true
  | none => true

/-- matchesFilter of snapshots.go: hosts by exact equality, paths by
substring containment, tags by intersection, then the since/until time
bounds, each bound silently dropped when its text fails to parse. -/
def matchesFilter (parseTime : String → Option Int) (sn : Snap)
    (filter : SnapshotFilter) : Bool :=
  if filter.hosts.length > 0 &&
      !(filter.hosts.any (fun host => sn.hostname == host)) then false
  else if filter.paths.length > 0 &&
      !(filter.paths.any (fun fp => sn.paths.any (fun sp => goContainsStr sp fp))) then
    false
  else if filter.tags.length > 0 &&
      !(filter.tags.any (fun ft => sn.tags.any (fun st => st == ft))) then false
  else
    match filter.since with
    | some s =>
      match parseTime s with
      | some sinceT =>
        if sn.time < sinceT then false else matchesUntil parseTime sn filter
      | none => matchesUntil parseTime sn filter
    | none => matchesUntil parseTime sn filter

/-- The comparator passed to sort.Slice by Snapshots:
less i j holds when snapshot i's time is after snapshot j's. -/
def snapshotsSortLess (a b : Snap) : Bool := decide (b.time < a.time)

/-- Documented contract of Go sort.Slice, by which the stdlib call in
Snapshots is embedded: the output is a permutation of the input that is
sorted with respect to the comparator. sort.Slice is explicitly NOT
guaranteed to be stable, so equal elements may appear in any order; the
relation captures exactly what the implementation promises. -/
def sortSliceSpec {α : Type} (less : α → α → Bool) (input output : List α) : Prop :=
  input.Perm output ∧ output.Pairwise (fun a b => less b a = false)

/-- Result relation of Snapshots (snapshots.go lines 33-49): the loaded
snapshots are filtered by matchesFilter in order, sorted descending by
time via sort.Slice, and truncated to filter.limit when limit > 0 and
more matched. (Loading itself is a storage-collaborator call; the list
of successfully loaded snapshots is the relation's input.) -/
def snapshotsResult (parseTime : String → Option Int) (filter : SnapshotFilter)
    (loaded result : List Snap) : Prop :=
  ∃ sorted,
    sortSliceSpec snapshotsSortLess
      (loaded.filter (fun sn => matchesFilter parseTime sn filter)) sorted ∧
    result =
      if 0 < filter.limit ∧ filter.limit < (sorted.length : Int) then
        sorted.take filter.limit.toNat
      else sorted

/-! ### Retention policy and Forget (part_005) -/

/-- ForgetPolicy of the library API. -/
structure ForgetPolicy where
  keepLast : Int
  keepHourly : Int
  keepDaily : Int
  keepWeekly : Int
  keepMonthly : Int
  keepYearly : Int
  keepWithin : Option String
  keepTags : List String
deriving DecidableEq, Repr

/-- ForgetPolicy.Empty: true when every keep count is zero, no keep-within
duration is set and the keep-tags list is empty. -/
def ForgetPolicy.Empty (p : ForgetPolicy) : Bool :=
  p.keepLast == 0 && p.keepHourly == 0 && p.keepDaily == 0 &&
  p.keepWeekly == 0 && p.keepMonthly == 0 && p.keepYearly == 0 &&
  p.keepWithin.isNone && p.keepTags.length == 0

/-- Internal data.ExpirePolicy as constructed by Forget. The Within field
has the opaque internal duration type data.Duration, embedded here as an
integer; Forget only stores the value that data.ParseDuration returned. -/
structure ExpirePolicy where
  last : Int
  hourly : Int
  daily : Int
  weekly : Int
  monthly : Int
  yearly : Int
  tags : List (List String)
  within : Int
deriving DecidableEq, Repr

/-- Policy conversion performed inside Forget's per-group loop (part_005
lines 46-71): keep counts are copied, a non-empty keep-tags list becomes a
one-element list of tag lists, and a present keep-within string must parse
(parseDur embeds data.ParseDuration); a parse failure aborts Forget. -/
def convertPolicy (parseDur : String → Option Int) (p : ForgetPolicy) :
    Option ExpirePolicy :=
  let ip : ExpirePolicy :=
    { last := p.keepLast, hourly := p.keepHourly, daily := p.keepDaily,
      weekly := p.keepWeekly, monthly := p.keepMonthly, yearly := p.keepYearly,
      tags := if p.keepTags.length > 0 then [p.keepTags] else [],
      within := 0 }
  match p.keepWithin with
  | none => some ip
  | some w =>
    match parseDur w with
    | none => none
    | some d => some { ip with within := d }

/-- Per-group loop of Forget (part_005 lines 45-92). applyPolicy embeds
the data.ApplyPolicy collaborator (keep set, removal candidates);
removeOk embeds the outcome of repo.RemoveUnpacked for each candidate (a
failed removal is logged and skipped). A group whose keep set is empty
while its removal set is non-empty is skipped entirely. -/
def forgetGroups (parseDur : String → Option Int)
    (applyPolicy : List Snap → ExpirePolicy → List Snap × List Snap)
    (removeOk : Snap → Bool) (policy : ForgetPolicy) :
    List (List Snap) → Except String (List String)
  | [] => Except.ok []
  | group :: groups =>
    match convertPolicy parseDur policy with
    | none => Except.error "invalid keep-within duration"
    | some internalPolicy =>
      let kr := applyPolicy group internalPolicy
      if kr.1.length = 0 ∧ 0 < kr.2.length then
        forgetGroups parseDur applyPolicy removeOk policy groups
      else
        match forgetGroups parseDur applyPolicy removeOk policy groups with
        | Except.error e => Except.error e
        | Except.ok rest =>
          Except.ok ((kr.2.filter removeOk).map (fun sn => sn.id) ++ rest)

/-- Forget (part_005 lines 14-96): an empty policy is rejected up front;
otherwise the groups produced by the data.GroupSnapshots collaborator
(keyed by hostname and path set) are processed in order and the
identifiers actually removed are returned. -/
def Forget (parseDur : String → Option Int)
    (applyPolicy : List Snap → ExpirePolicy → List Snap × List Snap)
    (removeOk : Snap → Bool) (policy : ForgetPolicy)
    (groups : List (List Snap)) : Except String (List String) :=
  if policy.Empty then Except.error "forget policy is empty"
  else forgetGroups parseDur applyPolicy removeOk policy groups

/-! ### Handle registry of the cgo bridge (part_001) -/

/-- State of the cgo bridge globals: the nextRepoID counter (a Go uintptr,
so arithmetic wraps modulo 2^64) and the repositories map from handle key
to the session it owns (sessions embedded as opaque numbers). -/
structure RegState where
  nextRepoID : Nat
  repositories : List (Nat × Nat)
deriving DecidableEq, Repr

/-- Go map lookup on the association-list embedding of the map. -/
def lookupMap (k : Nat) : List (Nat × Nat) → Option Nat
  | [] => none
  | (k2, v) :: rest => if k2 = k then some v else lookupMap k rest

/-- Go map insert (assignment overwrites an existing key). -/
def mapInsert (k v : Nat) (m : List (Nat × Nat)) : List (Nat × Nat) :=
  (k, v) :: m.filter (fun p => p.1 ≠ k)

/-- Go map delete. -/
def mapDelete (k : Nat) (m : List (Nat × Nat)) : List (Nat × Nat) :=
  m.filter (fun p => p.1 ≠ k)

/-- Conversion of a C.int handle argument to a ResticRepo (uintptr) map
key, as in repositories[ResticRepo(repo_id)]: the signed value is taken
modulo 2^64. -/
def toKey (h : Int) : Nat := (h % (2 ^ 64 : Int)).toNat

/-- Conversion of the ResticRepo (uintptr) counter value to the C.int
return value of restic_init/restic_open: truncation to 32 bits,
reinterpreted as a signed two's complement integer. -/
def toCInt (n : Nat) : Int :=
  if n % 2 ^ 32 < 2 ^ 31 then ((n % 2 ^ 32 : Nat) : Int)
  else ((n % 2 ^ 32 : Nat) : Int) - 2 ^ 32

/-- restic_init: nil argument pointers are rejected with InvalidParams
before anything happens; a failing resticlib.Init (the collaborator
result) maps to RepoNotFound; on success the current nextRepoID is
issued, the counter is bumped and the session is registered. -/
def resticInit (argsOk : Bool) (result : Option Nat) (s : RegState) :
    Int × RegState :=
  if !argsOk then (-1, s)
  else
    match result with
    | none => (-2, s)
    | some repo =>
      let repoID := s.nextRepoID
      (toCInt repoID,
        { nextRepoID := (s.nextRepoID + 1) % 2 ^ 64,
          repositories := mapInsert repoID repo s.repositories })

/-- restic_open: as restic_init but a failing resticlib.Open maps to
InvalidPassword. -/
def resticOpen (argsOk : Bool) (result : Option Nat) (s : RegState) :
    Int × RegState :=
  if !argsOk then (-1, s)
  else
    match result with
    | none => (-3, s)
    | some repo =>
      let repoID := s.nextRepoID
      (toCInt repoID,
        { nextRepoID := (s.nextRepoID + 1) % 2 ^ 64,
          repositories := mapInsert repoID repo s.repositories })

/-- restic_close: an unknown handle fails with InvalidParams and changes
nothing; otherwise the session is closed and its entry deleted. -/
def resticClose (h : Int) (s : RegState) : Int × RegState :=
  match lookupMap (toKey h) s.repositories with
  | none => (-1, s)
  | some _ => (0, { s with repositories := mapDelete (toKey h) s.repositories })

/-- One boundary event that can change the registry state: an init or
open attempt (argument validity and collaborator outcome recorded in the
event) or a close of some handle. -/
inductive COp where
  | initOp (argsOk : Bool) (result : Option Nat)
  | openOp (argsOk : Bool) (result : Option Nat)
  | closeOp (h : Int)
deriving DecidableEq, Repr

/-- Effect of one boundary event on the registry state. -/
def stepOp : COp → RegState → Int × RegState
  | COp.initOp a r, s => resticInit a r s
  | COp.openOp a r, s => resticOpen a r s
  | COp.closeOp h, s => resticClose h s

/-- Registry state after a sequence of boundary events. -/
def runTrace (s : RegState) : List COp → RegState
  | [] => s
  | op :: t => runTrace (stepOp op s).2 t

/-- The bridge's initial globals: nextRepoID = 1, empty map. -/
def initialReg : RegState := { nextRepoID := 1, repositories := [] }

/-- Whether an event is a successful create (init or open that passed the
argument check and whose collaborator call succeeded). -/
def isCreateOk : COp → Bool
  | COp.initOp a r => a && r.isSome
  | COp.openOp a r => a && r.isSome
  | COp.closeOp _ => false

/-- Number of successful creates in a trace. -/
def countCreates (t : List COp) : Nat := (t.filter isCreateOk).length

/-- The C.int handle values returned by the successful creates of a
trace, in order. -/
def issuedInts (s : RegState) : List COp → List Int
  | [] => []
  | op :: t =>
    if isCreateOk op then toCInt s.nextRepoID :: issuedInts (stepOp op s).2 t
    else issuedInts (stepOp op s).2 t

/-- The map keys allocated by the successful creates of a trace, in order. -/
def issuedKeys (s : RegState) : List COp → List Nat
  | [] => []
  | op :: t =>
    if isCreateOk op then s.nextRepoID :: issuedKeys (stepOp op s).2 t
    else issuedKeys (stepOp op s).2 t

/-- restic_backup at the boundary: unknown handle or missing paths fail
with InvalidParams, a failing Backup collaborator maps to BackupFailed,
success hands out the snapshot id string. -/
def resticBackup (s : RegState) (h : Int) (pathsOk : Bool)
    (backupResult : Option String) : Int × Option String :=
  match lookupMap (toKey h) s.repositories with
  | none => (-1, none)
  | some _ =>
    if !pathsOk then (-1, none)
    else
      match backupResult with
      | none => (-4, none)
      | some sid => (0, some sid)

/-- restic_restore at the boundary: unknown handle or nil string
arguments fail with InvalidParams, a failing Restore maps to
RestoreFailed. -/
def resticRestore (s : RegState) (h : Int) (argsOk : Bool)
    (restoreResult : Option Unit) : Int :=
  match lookupMap (toKey h) s.repositories with
  | none => -1
  | some _ =>
    if !argsOk then -1
    else
      match restoreResult with
      | none => -5
      | some _ => 0

/-- restic_list_snapshots at the boundary: unknown handle fails with
InvalidParams, a failing Snapshots maps to Unknown; on success the
snapshot count is written to count_out. -/
def resticListSnapshots (s : RegState) (h : Int)
    (listResult : Option (List Snap)) : Int × Option Int :=
  match lookupMap (toKey h) s.repositories with
  | none => (-1, none)
  | some _ =>
    match listResult with
    | none => (-99, none)
    | some l => (0, some (l.length : Int))

/-! ### Integrity check (check.go) and restic_check -/

/-- Check depth constants of the library API. -/
inductive CheckDepth where
  | default
  | full
  | readData
deriving DecidableEq, Repr

/-- CheckReport of the library API. -/
structure CheckReport where
  errors : List String
  warnings : List String
  success : Bool
deriving DecidableEq, Repr

/-- Collaborator outcomes consumed by Check: the LoadIndex error, the
checker's index hints and errors, and the error sequences drained from
the pack-structure and data-read channels (each channel is read until
the producer closes it, so the drained sequence is a finite list). -/
structure CheckEnv where
  loadIndexErr : Option String
  hints : List String
  indexErrs : List String
  packErrs : List String
  dataErrs : List String
deriving DecidableEq, Repr

/-- Check of check.go: a LoadIndex failure is an operation-level error;
index-check errors are an operation-level error as well; pack-structure
errors and (at read-data depth) data-read errors are only recorded in
the report, which then has Success = false, while the returned
operation-level error stays nil. -/
def Check (env : CheckEnv) (depth : CheckDepth) : CheckReport × Option String :=
  match env.loadIndexErr with
  | some e =>
    ({ errors := ["failed to load index: " ++ e], warnings := [],
       success := false }, some e)
  | none =>
    let report1 : CheckReport :=
      { errors := env.indexErrs, warnings := env.hints,
        success := env.indexErrs.isEmpty }
    if env.indexErrs.length > 0 then (report1, some "index check failed")
    else
      let report2 : CheckReport :=
        { report1 with
          errors := report1.errors ++ env.packErrs.map (fun e => "pack error: " ++ e),
          success := report1.success && env.packErrs.isEmpty }
      let report3 : CheckReport :=
        if depth = CheckDepth.readData then
          { report2 with
            errors := report2.errors ++ env.dataErrs.map (fun e => "data error: " ++ e),
            success := report2.success && env.dataErrs.isEmpty }
        else report2
      (report3, none)

/-- restic_check at the boundary: unknown handle fails with
InvalidParams; an operation-level Check error maps to Unknown; otherwise
the number of recorded report errors is written to errors_out and Ok is
returned. The call always uses CheckDepthDefault. -/
def resticCheck (s : RegState) (h : Int) (env : CheckEnv) : Int × Option Int :=
  match lookupMap (toKey h) s.repositories with
  | none => (-1, none)
  | some _ =>
    let ce := Check env CheckDepth.default
    match ce.2 with
    | some _ => (-99, none)
    | none => (0, some ((ce.1.errors.length : Int)))

/-! ### Prune (part_005) -/

/-- PruneReport of the library API (pack counters are Go ints, byte
counters are uint64). -/
structure PruneReport where
  packsDeleted : Int
  packsKept : Int
  packsRepacked : Int
  bytesDeleted : Nat
  bytesRepacked : Nat
deriving DecidableEq, Repr

/-- The zero PruneReport (Go's PruneReport composite literal). -/
def emptyPruneReport : PruneReport :=
  { packsDeleted := 0, packsKept := 0, packsRepacked := 0,
    bytesDeleted := 0, bytesRepacked := 0 }

/-- performPrune of part_005: counts the pack files delivered by the
repo.List collaborator (packsListed are the ids delivered before listErr,
if any, stopped the listing) into PacksKept and never deletes or repacks
anything, by construction. -/
def performPrune (packsListed : List String) (listErr : Option String) :
    PruneReport × Option String :=
  let report : PruneReport :=
    { emptyPruneReport with packsKept := (packsListed.length : Int) }
  match listErr with
  | some e => (report, some e)
  | none => (report, none)

/-- Prune of part_005: a LoadIndex failure or a listing failure returns
the zero report with an error; otherwise the performPrune stats are
returned. DryRun only affects logging. -/
def Prune (loadIndexErr : Option String) (dryRun : Bool)
    (packsListed : List String) (listErr : Option String) :
    PruneReport × Option String :=
  match loadIndexErr with
  | some e => (emptyPruneReport, some ("failed to load index: " ++ e))
  | none =>
    let pr := performPrune packsListed listErr
    match pr.2 with
    | some e => (emptyPruneReport, some ("prune failed: " ++ e))
    | none => (pr.1, none)

/-! ### Theorems -/

/-- The restore matching loop is the disjunction, over the pattern list,
of a match against the full path or against its final component. -/
theorem restoreMatchLoop_eq_any (ps : List String) (item : String) :
    restoreMatchLoop ps item =
      ps.any (fun p => goMatchStr p item || goMatchStr p (goBase item)) := by
  induction ps with
  | nil => rfl
  | cons p ps ih =>
    simp only [restoreMatchLoop, List.any_cons]
    by_cases h1 : goMatchStr p item = true
    · simp [h1]
    · by_cases h2 : goMatchStr p (goBase item) = true
      · simp [h1, h2]
      · simp [Bool.not_eq_true] at h1 h2
        simp [h1, h2, ih]

/-- The backup include loop is the disjunction, over the pattern list, of
a match against the final path component only. -/
theorem backupIncludeLoop_eq_any (ps : List String) (item : String) :
    backupIncludeLoop ps item = ps.any (fun p => goMatchStr p (goBase item)) := by
  induction ps with
  | nil => rfl
  | cons p ps ih =>
    simp only [backupIncludeLoop, List.any_cons]
    by_cases h1 : goMatchStr p (goBase item) = true
    · simp [h1]
    · simp [Bool.not_eq_true] at h1
      simp [h1, ih]

/-- The backup exclude loop is the disjunction, over the pattern list, of
a match against the final path component only. -/
theorem backupExcludeLoop_eq_any (ps : List String) (item : String) :
    backupExcludeLoop ps item = ps.any (fun p => goMatchStr p (goBase item)) := by
  induction ps with
  | nil => rfl
  | cons p ps ih =>
    simp only [backupExcludeLoop, List.any_cons]
    by_cases h1 : goMatchStr p (goBase item) = true
    · simp [h1]
    · simp [Bool.not_eq_true] at h1
      simp [h1, ih]

/-- An any over a pattern list, phrased as an existential. -/
theorem anyBoth_iff (ps : List String) (item : String) :
    (ps.any (fun p => goMatchStr p item || goMatchStr p (goBase item)) = true) ↔
      ∃ p ∈ ps, goMatchStr p item = true ∨ goMatchStr p (goBase item) = true := by
  simp [List.any_eq_true]

/-- An any over a pattern list matched against the base only, phrased as
an existential. -/
theorem anyBase_iff (ps : List String) (item : String) :
    (ps.any (fun p => goMatchStr p (goBase item)) = true) ↔
      ∃ p ∈ ps, goMatchStr p (goBase item) = true := by
  simp [List.any_eq_true]

/-- C2: the restore path selection filter returns (false, true) when the
include list is non-empty and the item matches none of its patterns;
otherwise (false, false) when the item matches some exclude pattern;
otherwise (true, true) — the include phase is evaluated strictly before
the exclude phase, where a pattern matches the item when it matches the
full path or its final component. -/
theorem c2_select_filter_two_phase (item : String) (isDir : Bool)
    (includes excludes : List String) :
    restoreSelectFilter includes excludes item isDir =
      if includes ≠ [] ∧
          ¬ ∃ p ∈ includes, goMatchStr p item = true ∨ goMatchStr p (goBase item) = true then
        (false, true)
      else if ∃ p ∈ excludes, goMatchStr p item = true ∨ goMatchStr p (goBase item) = true then
        (false, false)
      else (true, true) := by
  unfold restoreSelectFilter
  rw [restoreMatchLoop_eq_any, restoreMatchLoop_eq_any]
  by_cases hinc : ∃ p ∈ includes, goMatchStr p item = true ∨ goMatchStr p (goBase item) = true
  · have h1 : includes.any (fun p => goMatchStr p item || goMatchStr p (goBase item)) = true :=
      (anyBoth_iff includes item).mpr hinc
    by_cases hexc : ∃ p ∈ excludes, goMatchStr p item = true ∨ goMatchStr p (goBase item) = true
    · have h2 : excludes.any (fun p => goMatchStr p item || goMatchStr p (goBase item)) = true :=
        (anyBoth_iff excludes item).mpr hexc
      simp [h1, h2, hinc, hexc]
    · have h2 : excludes.any (fun p => goMatchStr p item || goMatchStr p (goBase item)) = false := by
        rw [← Bool.not_eq_true, anyBoth_iff]; exact hexc
      simp [h1, h2, hinc, hexc]
  · have h1 : includes.any (fun p => goMatchStr p item || goMatchStr p (goBase item)) = false := by
      rw [← Bool.not_eq_true, anyBoth_iff]; exact hinc
    by_cases hne : includes = []
    · subst hne
      by_cases hexc : ∃ p ∈ excludes, goMatchStr p item = true ∨ goMatchStr p (goBase item) = true
      · have h2 : excludes.any (fun p => goMatchStr p item || goMatchStr p (goBase item)) = true :=
          (anyBoth_iff excludes item).mpr hexc
        simp [h2, hexc]
      · have h2 : excludes.any (fun p => goMatchStr p item || goMatchStr p (goBase item)) = false := by
          rw [← Bool.not_eq_true, anyBoth_iff]; exact hexc
        simp [h2, hexc]
    · have hlen : includes.length > 0 := List.length_pos.mpr hne
      simp [h1, hne, hinc, hlen]

/-- C4 counterexample: the pattern a/* matches the full path a/b but not
its final component b; contrary to the claim, the backup SelectByName
treats this as a non-match (the item is dropped by a non-empty include
list it should have matched), while the restore filter selects it. -/
theorem c4_counterexample :
    goMatchStr "a/*" "a/b" = true ∧
    goMatchStr "a/*" (goBase "a/b") = false ∧
    backupSelectByName ["a/*"] [] "a/b" = false ∧
    restoreSelectFilter ["a/*"] [] "a/b" false = (true, true) :=
  ⟨by decide, by decide, by decide, by decide⟩

/-- C4 amended: in the restore path selection filter every glob pattern
is matched against both the item's full path and its final path
component and a match on either form counts (first matching pattern
wins); in the backup filter (SelectByName) every pattern is matched
against the final path component only, so a pattern matching only the
full path does not count. -/
theorem c4_pattern_matching_forms (includes excludes : List String) (item : String) :
    (backupSelectByName includes excludes item =
      if includes ≠ [] ∧ ¬ ∃ p ∈ includes, goMatchStr p (goBase item) = true then false
      else if ∃ p ∈ excludes, goMatchStr p (goBase item) = true then false
      else true) ∧
    restoreMatchLoop includes item =
      includes.any (fun p => goMatchStr p item || goMatchStr p (goBase item)) ∧
    backupIncludeLoop includes item =
      includes.any (fun p => goMatchStr p (goBase item)) := by
  refine ⟨?_, restoreMatchLoop_eq_any includes item, backupIncludeLoop_eq_any includes item⟩
  unfold backupSelectByName
  rw [backupIncludeLoop_eq_any, backupExcludeLoop_eq_any]
  by_cases hinc : ∃ p ∈ includes, goMatchStr p (goBase item) = true
  · have h1 : includes.any (fun p => goMatchStr p (goBase item)) = true :=
      (anyBase_iff includes item).mpr hinc
    by_cases hexc : ∃ p ∈ excludes, goMatchStr p (goBase item) = true
    · have h2 : excludes.any (fun p => goMatchStr p (goBase item)) = true :=
        (anyBase_iff excludes item).mpr hexc
      simp [h1, h2, hinc, hexc]
    · have h2 : excludes.any (fun p => goMatchStr p (goBase item)) = false := by
        rw [← Bool.not_eq_true, anyBase_iff]; exact hexc
      simp [h1, h2, hinc, hexc]
  · have h1 : includes.any (fun p => goMatchStr p (goBase item)) = false := by
      rw [← Bool.not_eq_true, anyBase_iff]; exact hinc
    by_cases hne : includes = []
    · subst hne
      by_cases hexc : ∃ p ∈ excludes, goMatchStr p (goBase item) = true
      · have h2 : excludes.any (fun p => goMatchStr p (goBase item)) = true :=
          (anyBase_iff excludes item).mpr hexc
        simp [h2, hexc]
      · have h2 : excludes.any (fun p => goMatchStr p (goBase item)) = false := by
          rw [← Bool.not_eq_true, anyBase_iff]; exact hexc
        simp [h2, hexc]
    · have hlen : includes.length > 0 := List.length_pos.mpr hne
      simp [h1, hne, hinc, hlen]

/-- C7: Forget called with an empty policy — every keep count zero,
KeepWithin absent, KeepTags empty, which is exactly when
ForgetPolicy.Empty returns true — fails with the invalid-argument error
and removes no snapshot (the error is raised before any group is
processed). -/
theorem c7_forget_empty_policy (parseDur : String → Option Int)
    (applyPolicy : List Snap → ExpirePolicy → List Snap × List Snap)
    (removeOk : Snap → Bool) (policy : ForgetPolicy)
    (groups : List (List Snap)) :
    (policy.Empty = true ↔
      (policy.keepLast = 0 ∧ policy.keepHourly = 0 ∧ policy.keepDaily = 0 ∧
       policy.keepWeekly = 0 ∧ policy.keepMonthly = 0 ∧ policy.keepYearly = 0 ∧
       policy.keepWithin = none ∧ policy.keepTags = [])) ∧
    (policy.Empty = true →
      Forget parseDur applyPolicy removeOk policy groups =
        Except.error "forget policy is empty") := by
  constructor
  · simp [ForgetPolicy.Empty, Option.isNone_iff_eq_none, List.length_eq_zero,
      and_assoc]
  · intro h
    simp [Forget, h]

/-- C7 witness: the all-zero policy is Empty and Forget rejects it. -/
theorem c7_forget_empty_policy_witness :
    Forget (fun _ => none) (fun g _ => (g, ([] : List Snap))) (fun _ => true)
      { keepLast := 0, keepHourly := 0, keepDaily := 0, keepWeekly := 0,
        keepMonthly := 0, keepYearly := 0, keepWithin := none, keepTags := [] }
      [] = Except.error "forget policy is empty" :=
  (c7_forget_empty_policy (fun _ => none) (fun g _ => (g, [])) (fun _ => true)
    { keepLast := 0, keepHourly := 0, keepDaily := 0, keepWeekly := 0,
      keepMonthly := 0, keepYearly := 0, keepWithin := none, keepTags := [] }
    []).2 (by decide)

/-- Inserting a group whose policy evaluation yields an empty keep set
and a non-empty removal set anywhere in the group list does not change
what forgetGroups returns: the group is skipped and the remaining groups
are processed as before. -/
theorem forgetGroups_skip (parseDur : String → Option Int)
    (applyPolicy : List Snap → ExpirePolicy → List Snap × List Snap)
    (removeOk : Snap → Bool) (policy : ForgetPolicy) (ip : ExpirePolicy)
    (g : List Snap) (gs2 : List (List Snap))
    (hip : convertPolicy parseDur policy = some ip)
    (hkeep : (applyPolicy g ip).1 = [])
    (hrem : (applyPolicy g ip).2 ≠ []) :
    ∀ gs1 : List (List Snap),
      forgetGroups parseDur applyPolicy removeOk policy (gs1 ++ g :: gs2) =
        forgetGroups parseDur applyPolicy removeOk policy (gs1 ++ gs2) := by
  intro gs1
  induction gs1 with
  | nil =>
    simp only [List.nil_append]
    rw [forgetGroups, hip]
    have hc : (applyPolicy g ip).1.length = 0 ∧ 0 < (applyPolicy g ip).2.length := by
      constructor
      · simp [hkeep]
      · exact List.length_pos.mpr hrem
    simp [hc]
  | cons g1 rest ih =>
    simp only [List.cons_append]
    rw [forgetGroups, forgetGroups, hip]
    by_cases hskip : (applyPolicy g1 ip).1.length = 0 ∧ 0 < (applyPolicy g1 ip).2.length
    · simp only [if_pos hskip]
      exact ih
    · simp only [if_neg hskip]
      rw [ih]

/-- C1: for every retention group and every non-empty forget policy
whose keep-within text (if any) parses, if applying the policy to the
group yields an empty keep set while the removal-candidate set is
non-empty, then Forget removes no snapshot of that group: its result is
the same as if the group were absent, processing continues with the
remaining groups, and the group alone yields zero removals. -/
theorem c1_forget_skips_group (parseDur : String → Option Int)
    (applyPolicy : List Snap → ExpirePolicy → List Snap × List Snap)
    (removeOk : Snap → Bool) (policy : ForgetPolicy) (ip : ExpirePolicy)
    (g : List Snap) (gs1 gs2 : List (List Snap))
    (hne : policy.Empty = false)
    (hip : convertPolicy parseDur policy = some ip)
    (hkeep : (applyPolicy g ip).1 = [])
    (hrem : (applyPolicy g ip).2 ≠ []) :
    Forget parseDur applyPolicy removeOk policy (gs1 ++ g :: gs2) =
      Forget parseDur applyPolicy removeOk policy (gs1 ++ gs2) ∧
    Forget parseDur applyPolicy removeOk policy [g] = Except.ok [] := by
  constructor
  · simp only [Forget, hne]
    exact forgetGroups_skip parseDur applyPolicy removeOk policy ip g gs2
      hip hkeep hrem gs1
  · simp only [Forget, hne]
    have h := forgetGroups_skip parseDur applyPolicy removeOk policy ip g []
      hip hkeep hrem []
    simpa [forgetGroups] using h

/-- C1 witness: a keep-last-1 policy, an apply-policy outcome keeping
nothing of a singleton group, and a second group that does lose one
snapshot; the endangered group is skipped while the other is processed. -/
theorem c1_forget_skips_group_witness :
    Forget (fun _ => none) (fun g _ => (g.drop 1, g.take 1)) (fun _ => true)
        { keepLast := 1, keepHourly := 0, keepDaily := 0, keepWeekly := 0,
          keepMonthly := 0, keepYearly := 0, keepWithin := none, keepTags := [] }
        ([⟨"a", 0, [], "h", "u", []⟩] ::
          [[⟨"b", 1, [], "h", "u", []⟩, ⟨"c", 2, [], "h", "u", []⟩]]) =
      Forget (fun _ => none) (fun g _ => (g.drop 1, g.take 1)) (fun _ => true)
        { keepLast := 1, keepHourly := 0, keepDaily := 0, keepWeekly := 0,
          keepMonthly := 0, keepYearly := 0, keepWithin := none, keepTags := [] }
        [[⟨"b", 1, [], "h", "u", []⟩, ⟨"c", 2, [], "h", "u", []⟩]] ∧
    Forget (fun _ => none) (fun g _ => (g.drop 1, g.take 1)) (fun _ => true)
        { keepLast := 1, keepHourly := 0, keepDaily := 0, keepWeekly := 0,
          keepMonthly := 0, keepYearly := 0, keepWithin := none, keepTags := [] }
        [[⟨"a", 0, [], "h", "u", []⟩]] = Except.ok [] :=
  c1_forget_skips_group (fun _ => none) (fun g _ => (g.drop 1, g.take 1))
    (fun _ => true)
    { keepLast := 1, keepHourly := 0, keepDaily := 0, keepWeekly := 0,
      keepMonthly := 0, keepYearly := 0, keepWithin := none, keepTags := [] }
    { last := 1, hourly := 0, daily := 0, weekly := 0, monthly := 0,
      yearly := 0, tags := [], within := 0 }
    [⟨"a", 0, [], "h", "u", []⟩] [] [[⟨"b", 1, [], "h", "u", []⟩, ⟨"c", 2, [], "h", "u", []⟩]]
    (by decide) (by decide) (by decide) (by decide)

/-- C8: a since or until filter value that fails to parse as an RFC3339
timestamp is treated as absent — the corresponding bound is not applied,
so the match result is the same as with no bound at all, and no snapshot
is excluded on account of the malformed bound. -/
theorem c8_malformed_time_bound (parseTime : String → Option Int) (sn : Snap)
    (filter : SnapshotFilter) (s : String) (h : parseTime s = none) :
    matchesFilter parseTime sn { filter with since := some s } =
      matchesFilter parseTime sn { filter with since := none } ∧
    matchesFilter parseTime sn { filter with untilT := some s } =
      matchesFilter parseTime sn { filter with untilT := none } := by
  constructor
  · simp [matchesFilter, matchesUntil, h]
  · simp [matchesFilter, matchesUntil, h]

/-- C8 witness: with a parser that rejects the text, a filter with the
malformed bound matches exactly like the boundless filter. -/
theorem c8_malformed_time_bound_witness :
    matchesFilter (fun _ => none) ⟨"a", 0, [], "h", "u", []⟩
        { hosts := [], paths := [], tags := [], since := some "not-a-time",
          untilT := none, limit := 0 } =
      matchesFilter (fun _ => none) ⟨"a", 0, [], "h", "u", []⟩
        { hosts := [], paths := [], tags := [], since := none,
          untilT := none, limit := 0 } ∧
    matchesFilter (fun _ => none) ⟨"a", 0, [], "h", "u", []⟩
        { hosts := [], paths := [], tags := [], since := none,
          untilT := some "not-a-time", limit := 0 } =
      matchesFilter (fun _ => none) ⟨"a", 0, [], "h", "u", []⟩
        { hosts := [], paths := [], tags := [], since := none,
          untilT := none, limit := 0 } :=
  c8_malformed_time_bound (fun _ => none) ⟨"a", 0, [], "h", "u", []⟩
    { hosts := [], paths := [], tags := [], since := none, untilT := none,
      limit := 0 } "not-a-time" rfl

/-- C9: Prune removes nothing on any input: the returned report always
has zero deleted, repacked and byte counters, PacksKept equals the
number of pack files listed whenever the operation succeeds, and it
succeeds exactly when index loading and pack listing succeed — dry-run
or not. -/
theorem c9_prune_removes_nothing (loadIndexErr : Option String) (dryRun : Bool)
    (packsListed : List String) (listErr : Option String) :
    (Prune loadIndexErr dryRun packsListed listErr).1.packsDeleted = 0 ∧
    (Prune loadIndexErr dryRun packsListed listErr).1.packsRepacked = 0 ∧
    (Prune loadIndexErr dryRun packsListed listErr).1.bytesDeleted = 0 ∧
    (Prune loadIndexErr dryRun packsListed listErr).1.bytesRepacked = 0 ∧
    ((Prune loadIndexErr dryRun packsListed listErr).2 = none →
      (Prune loadIndexErr dryRun packsListed listErr).1.packsKept =
        (packsListed.length : Int)) ∧
    ((Prune loadIndexErr dryRun packsListed listErr).2 = none ↔
      loadIndexErr = none ∧ listErr = none) := by
  cases loadIndexErr with
  | some e => simp [Prune, emptyPruneReport]
  | none =>
    cases listErr with
    | some e => simp [Prune, performPrune, emptyPruneReport]
    | none => simp [Prune, performPrune, emptyPruneReport]

/-- C9 witness: a successful prune over two listed packs keeps both and
deletes nothing. -/
theorem c9_prune_removes_nothing_witness :
    (Prune none false ["p1", "p2"] none).1.packsDeleted = 0 ∧
    (Prune none false ["p1", "p2"] none).1.packsKept = 2 ∧
    (Prune none false ["p1", "p2"] none).2 = none := by
  have h := c9_prune_removes_nothing none false ["p1", "p2"] none
  refine ⟨h.1, ?_, h.2.2.2.2.2.mpr ⟨rfl, rfl⟩⟩
  have h2 := h.2.2.2.2.1 (h.2.2.2.2.2.mpr ⟨rfl, rfl⟩)
  simpa using h2

/-- C10: when the index loads and the checker's index check reports no
errors, Check returns no operation-level error even when pack-structure
or data-read verification recorded errors (the report then has
Success = false), and consequently restic_check on a live handle returns
Ok while writing the positive error count to errors_out. -/
theorem c10_check_nil_error (env : CheckEnv) (depth : CheckDepth)
    (s : RegState) (h : Int)
    (hload : env.loadIndexErr = none) (hidx : env.indexErrs = []) :
    (Check env depth).2 = none ∧
    (env.packErrs ≠ [] → (Check env depth).1.success = false) ∧
    (depth = CheckDepth.readData → env.dataErrs ≠ [] →
      (Check env depth).1.success = false) ∧
    (lookupMap (toKey h) s.repositories ≠ none → env.packErrs ≠ [] →
      (resticCheck s h env).1 = 0 ∧
      (resticCheck s h env).2 = some ((Check env CheckDepth.default).1.errors.length : Int) ∧
      0 < (Check env CheckDepth.default).1.errors.length) := by
  have hck : ∀ d, (Check env d).2 = none ∧
      (Check env d).1.success =
        (env.packErrs.isEmpty &&
          (if d = CheckDepth.readData then env.dataErrs.isEmpty else true)) ∧
      (Check env d).1.errors.length =
        env.packErrs.length + (if d = CheckDepth.readData then env.dataErrs.length else 0) := by
    intro d
    cases d <;> simp [Check, hload, hidx]
  refine ⟨(hck depth).1, ?_, ?_, ?_⟩
  · intro hp
    rw [(hck depth).2.1]
    simp [List.isEmpty_iff, hp]
  · intro hd hdl
    subst hd
    rw [(hck CheckDepth.readData).2.1]
    simp [List.isEmpty_iff, hdl]
  · intro hlive hp
    have hplen : 0 < env.packErrs.length := List.length_pos.mpr hp
    have herrs : 0 < (Check env CheckDepth.default).1.errors.length := by
      rw [(hck CheckDepth.default).2.2]
      simpa using hplen
    unfold resticCheck
    cases hl : lookupMap (toKey h) s.repositories with
    | none => exact absurd hl hlive
    | some v =>
      refine ⟨?_, ?_, herrs⟩ <;> simp [(hck CheckDepth.default).1]

/-- C10 witness: an environment with a clean index and one pack error
gives a nil Check error, an unsuccessful report, and restic_check on a
registered handle returns 0 with errors_out = 1. -/
theorem c10_check_nil_error_witness :
    (Check ⟨none, [], [], ["bad pack"], []⟩ CheckDepth.default).2 = none ∧
    (Check ⟨none, [], [], ["bad pack"], []⟩ CheckDepth.default).1.success = false ∧
    (resticCheck ⟨2, [(1, 7)]⟩ 1 ⟨none, [], [], ["bad pack"], []⟩).1 = 0 ∧
    (resticCheck ⟨2, [(1, 7)]⟩ 1 ⟨none, [], [], ["bad pack"], []⟩).2 = some 1 := by
  have h := c10_check_nil_error ⟨none, [], [], ["bad pack"], []⟩ CheckDepth.default
    ⟨2, [(1, 7)]⟩ 1 rfl rfl
  have hl : lookupMap (toKey 1) (⟨2, [(1, 7)]⟩ : RegState).repositories ≠ none := by decide
  have h4 := h.2.2.2 hl (by decide)
  refine ⟨h.1, h.2.1 (by decide), h4.1, ?_⟩
  rw [h4.2.1]
  decide

/-- Keys absent from the map stay absent along any trace that never
issues them: creates insert only the key they issue, closes only delete. -/
theorem lookup_none_preserved (t : List COp) :
    ∀ (s : RegState) (k : Nat), lookupMap k s.repositories = none →
      k ∉ issuedKeys s t →
      lookupMap k (runTrace s t).repositories = none := by
  have hmem : ∀ (k : Nat) (m : List (Nat × Nat)),
      lookupMap k m = none ↔ k ∉ m.map Prod.fst := by
    intro k m
    induction m with
    | nil => simp [lookupMap]
    | cons p m ih =>
      rcases p with ⟨k2, v⟩
      by_cases h : k2 = k
      · subst h
        simp [lookupMap]
      · have hstep : lookupMap k ((k2, v) :: m) = lookupMap k m := by
          simp [lookupMap, h]
        rw [hstep, ih, List.map_cons]
        constructor
        · intro hm hc
          rcases List.mem_cons.mp hc with hc | hc
          · exact h hc.symm
          · exact hm hc
        · intro hm hc
          exact hm (List.mem_cons_of_mem _ hc)
  have hinsert : ∀ (k k2 v : Nat) (m : List (Nat × Nat)), k ≠ k2 →
      lookupMap k m = none → lookupMap k (mapInsert k2 v m) = none := by
    intro k k2 v m hne hm
    rw [hmem] at hm ⊢
    intro hcon
    rcases List.mem_map.mp hcon with ⟨p, hp, hfst⟩
    rcases List.mem_cons.mp hp with h | h
    · exact hne (by rw [← hfst, h])
    · exact hm (List.mem_map.mpr ⟨p, List.mem_of_mem_filter h, hfst⟩)
  have hdelete : ∀ (k k2 : Nat) (m : List (Nat × Nat)),
      lookupMap k m = none → lookupMap k (mapDelete k2 m) = none := by
    intro k k2 m hm
    rw [hmem] at hm ⊢
    intro hcon
    rcases List.mem_map.mp hcon with ⟨p, hp, hfst⟩
    exact hm (List.mem_map.mpr ⟨p, List.mem_of_mem_filter hp, hfst⟩)
  induction t with
  | nil =>
    intro s k h _
    simpa [runTrace] using h
  | cons op t ih =>
    intro s k h hks
    cases op with
    | initOp a r =>
      cases a with
      | false =>
        have hs : stepOp (COp.initOp false r) s = (-1, s) := by
          simp [stepOp, resticInit]
        rw [runTrace, hs]
        apply ih s k h
        simpa [issuedKeys, isCreateOk, hs] using hks
      | true =>
        cases r with
        | none =>
          have hs : stepOp (COp.initOp true none) s = (-2, s) := by
            simp [stepOp, resticInit]
          rw [runTrace, hs]
          apply ih s k h
          simpa [issuedKeys, isCreateOk, hs] using hks
        | some repo =>
          have hcr : isCreateOk (COp.initOp true (some repo)) = true := by
            simp [isCreateOk]
          have hks2 : k ≠ s.nextRepoID ∧
              k ∉ issuedKeys (stepOp (COp.initOp true (some repo)) s).2 t := by
            rw [issuedKeys, if_pos hcr] at hks
            exact ⟨fun hh => hks (by rw [hh]; exact List.mem_cons_self _ _),
              fun hh => hks (List.mem_cons_of_mem _ hh)⟩
          rw [runTrace]
          apply ih _ k _ hks2.2
          have hs : (stepOp (COp.initOp true (some repo)) s).2.repositories =
              mapInsert s.nextRepoID repo s.repositories := by
            simp [stepOp, resticInit]
          rw [hs]
          exact hinsert k s.nextRepoID repo s.repositories hks2.1 h
    | openOp a r =>
      cases a with
      | false =>
        have hs : stepOp (COp.openOp false r) s = (-1, s) := by
          simp [stepOp, resticOpen]
        rw [runTrace, hs]
        apply ih s k h
        simpa [issuedKeys, isCreateOk, hs] using hks
      | true =>
        cases r with
        | none =>
          have hs : stepOp (COp.openOp true none) s = (-3, s) := by
            simp [stepOp, resticOpen]
          rw [runTrace, hs]
          apply ih s k h
          simpa [issuedKeys, isCreateOk, hs] using hks
        | some repo =>
          have hcr : isCreateOk (COp.openOp true (some repo)) = true := by
            simp [isCreateOk]
          have hks2 : k ≠ s.nextRepoID ∧
              k ∉ issuedKeys (stepOp (COp.openOp true (some repo)) s).2 t := by
            rw [issuedKeys, if_pos hcr] at hks
            exact ⟨fun hh => hks (by rw [hh]; exact List.mem_cons_self _ _),
              fun hh => hks (List.mem_cons_of_mem _ hh)⟩
          rw [runTrace]
          apply ih _ k _ hks2.2
          have hs : (stepOp (COp.openOp true (some repo)) s).2.repositories =
              mapInsert s.nextRepoID repo s.repositories := by
            simp [stepOp, resticOpen]
          rw [hs]
          exact hinsert k s.nextRepoID repo s.repositories hks2.1 h
    | closeOp h2 =>
      have hks2 : k ∉ issuedKeys (stepOp (COp.closeOp h2) s).2 t := by
        simpa [issuedKeys, isCreateOk] using hks
      rw [runTrace]
      apply ih _ k _ hks2
      cases hl : lookupMap (toKey h2) s.repositories with
      | none =>
        have hs : (stepOp (COp.closeOp h2) s).2 = s := by
          simp [stepOp, resticClose, hl]
        rw [hs]
        exact h
      | some v =>
        have hs : (stepOp (COp.closeOp h2) s).2.repositories =
            mapDelete (toKey h2) s.repositories := by
          simp [stepOp, resticClose, hl]
        rw [hs]
        exact hdelete k (toKey h2) s.repositories h

/-- Deleting a key removes every binding of it. -/
theorem lookupMap_mapDelete_self (k : Nat) (m : List (Nat × Nat)) :
    lookupMap k (mapDelete k m) = none := by
  induction m with
  | nil => rfl
  | cons p m ih =>
    rcases p with ⟨k2, v⟩
    by_cases h : k2 = k
    · simpa [mapDelete, h] using ih
    · simpa [mapDelete, List.filter_cons, h, lookupMap] using ih

/-- C6: every operation taking a handle fails with InvalidParams on a
handle that is not registered, and the failed restic_close leaves the
registry unchanged; a handle key that was never issued along a trace is
never registered, and once a handle has been successfully closed it
stays unregistered along any continuation that does not issue its key
again. -/
theorem c6_unknown_handle_ops (s : RegState) (h : Int) (pathsOk argsOk : Bool)
    (backupResult : Option String) (restoreResult : Option Unit)
    (listResult : Option (List Snap)) (env : CheckEnv)
    (t t2 : List COp) (k : Nat)
    (hnone : lookupMap (toKey h) s.repositories = none) :
    resticBackup s h pathsOk backupResult = (-1, none) ∧
    resticRestore s h argsOk restoreResult = -1 ∧
    resticListSnapshots s h listResult = (-1, none) ∧
    resticCheck s h env = (-1, none) ∧
    resticClose h s = (-1, s) ∧
    (k ∉ issuedKeys initialReg t →
      lookupMap k (runTrace initialReg t).repositories = none) ∧
    (∀ s2 : RegState, lookupMap (toKey h) s2.repositories ≠ none →
      toKey h ∉ issuedKeys (resticClose h s2).2 t2 →
      lookupMap (toKey h) (runTrace (resticClose h s2).2 t2).repositories = none) := by
  refine ⟨?_, ?_, ?_, ?_, ?_, ?_, ?_⟩
  · simp [resticBackup, hnone]
  · simp [resticRestore, hnone]
  · simp [resticListSnapshots, hnone]
  · simp [resticCheck, hnone]
  · simp [resticClose, hnone]
  · intro hk
    exact lookup_none_preserved t initialReg k rfl hk
  · intro s2 hlive hk
    apply lookup_none_preserved t2 (resticClose h s2).2 (toKey h) ?_ hk
    cases hl : lookupMap (toKey h) s2.repositories with
    | none => exact absurd hl hlive
    | some v =>
      have hs : (resticClose h s2).2.repositories =
          mapDelete (toKey h) s2.repositories := by
        simp [resticClose, hl]
      rw [hs]
      exact lookupMap_mapDelete_self (toKey h) s2.repositories

/-- C6 witness: on the empty registry every operation on handle 5
fails with InvalidParams and close is a no-op; a key never issued by a
one-create trace stays unregistered; and after closing handle 5 on a
registry holding it, handle 5 stays unregistered. -/
theorem c6_unknown_handle_ops_witness :
    resticBackup initialReg 5 true (some "id") = (-1, none) ∧
    resticClose 5 initialReg = (-1, initialReg) ∧
    lookupMap 9 (runTrace initialReg [COp.initOp true (some 3)]).repositories = none ∧
    lookupMap (toKey 5)
      (runTrace (resticClose 5 (⟨2, [(5, 7)]⟩ : RegState)).2 [COp.closeOp 4]).repositories = none := by
  have hh := c6_unknown_handle_ops initialReg 5 true true (some "id") (some ())
    (some []) ⟨none, [], [], [], []⟩ [COp.initOp true (some 3)] [COp.closeOp 4] 9 rfl
  refine ⟨hh.1, hh.2.2.2.2.1, hh.2.2.2.2.2.1 (by decide), ?_⟩
  exact hh.2.2.2.2.2.2 ⟨2, [(5, 7)]⟩ (by decide) (by decide)

/-- The C.int conversion only depends on the counter value modulo 2^32,
so a wrapped uintptr argument converts like the unwrapped one. -/
theorem toCInt_add_mod (a b : Nat) : toCInt ((a % 2 ^ 64) + b) = toCInt (a + b) := by
  unfold toCInt
  have h : ((a % 2 ^ 64) + b) % 2 ^ 32 = (a + b) % 2 ^ 32 := by
    conv_lhs => rw [Nat.add_mod, Nat.mod_mod_of_dvd a ⟨2 ^ 32, by norm_num⟩, ← Nat.add_mod]
  rw [h]

/-- Below 2^31 the C.int conversion is the identity. -/
theorem toCInt_small (n : Nat) (h : n < 2 ^ 31) : toCInt n = (n : Int) := by
  unfold toCInt
  have h32 : n < 2 ^ 32 := lt_trans h (by norm_num)
  rw [Nat.mod_eq_of_lt h32, if_pos h]

/-- A successful create returns the current counter and bumps it;
nothing else touches the counter. -/
theorem stepOp_next_create (op : COp) (s : RegState) (hc : isCreateOk op = true) :
    (stepOp op s).2.nextRepoID = (s.nextRepoID + 1) % 2 ^ 64 := by
  cases op with
  | initOp a r =>
    cases a with
    | false => simp [isCreateOk] at hc
    | true =>
      cases r with
      | none => simp [isCreateOk] at hc
      | some repo => simp [stepOp, resticInit]
  | openOp a r =>
    cases a with
    | false => simp [isCreateOk] at hc
    | true =>
      cases r with
      | none => simp [isCreateOk] at hc
      | some repo => simp [stepOp, resticOpen]
  | closeOp h => simp [isCreateOk] at hc

/-- Failed creates and closes leave the counter unchanged. -/
theorem stepOp_next_noncreate (op : COp) (s : RegState) (hc : isCreateOk op = false) :
    (stepOp op s).2.nextRepoID = s.nextRepoID := by
  cases op with
  | initOp a r =>
    cases a with
    | false => simp [stepOp, resticInit]
    | true =>
      cases r with
      | none => simp [stepOp, resticInit]
      | some repo => simp [isCreateOk] at hc
  | openOp a r =>
    cases a with
    | false => simp [stepOp, resticOpen]
    | true =>
      cases r with
      | none => simp [stepOp, resticOpen]
      | some repo => simp [isCreateOk] at hc
  | closeOp h =>
    cases hl : lookupMap (toKey h) s.repositories with
    | none => simp [stepOp, resticClose, hl]
    | some v => simp [stepOp, resticClose, hl]

/-- Closed form of the returned create handles along a trace: the n-th
successful create returns the C.int conversion of start counter + n. -/
theorem issuedInts_closed (t : List COp) :
    ∀ s : RegState, issuedInts s t =
      (List.range (countCreates t)).map (fun i => toCInt (s.nextRepoID + i)) := by
  induction t with
  | nil =>
    intro s
    simp [issuedInts, countCreates]
  | cons op t ih =>
    intro s
    cases hc : isCreateOk op with
    | true =>
      rw [issuedInts, if_pos hc, ih ((stepOp op s).2)]
      have hcount : countCreates (op :: t) = countCreates t + 1 := by
        simp [countCreates, List.filter_cons, hc]
      rw [hcount, List.range_succ_eq_map, List.map_cons, List.map_map]
      congr 1
      apply List.map_congr_left
      intro i _
      simp only [Function.comp_apply]
      rw [stepOp_next_create op s hc, toCInt_add_mod]
      congr 1
      omega
    | false =>
      rw [issuedInts, if_neg (by simp [hc]), ih ((stepOp op s).2)]
      have hcount : countCreates (op :: t) = countCreates t := by
        simp [countCreates, List.filter_cons, hc]
      rw [hcount, stepOp_next_noncreate op s hc]

/-- C5 counterexample: at the 2^31-th successful create the C.int
conversion of the 64-bit counter wraps, and restic_init returns
-2147483648 — neither positive nor greater than the handle issued just
before it, contradicting the claim that all issued handles are strictly
increasing positive integers. -/
theorem c5_counterexample :
    (-(2 ^ 31) : Int) ∈
      issuedInts initialReg (List.replicate (2 ^ 31) (COp.initOp true (some 0))) ∧
    ¬ ∀ x ∈ issuedInts initialReg (List.replicate (2 ^ 31) (COp.initOp true (some 0))),
        0 < x := by
  have hcount : ∀ n : Nat,
      countCreates (List.replicate n (COp.initOp true (some 0))) = n := by
    intro n
    induction n with
    | zero => rfl
    | succ n ih =>
      simp only [countCreates, List.replicate_succ, List.filter_cons] at ih ⊢
      simp only [isCreateOk, Option.isSome_some, Bool.and_true, if_true]
      simp [ih]
  have hform := issuedInts_closed
    (List.replicate (2 ^ 31) (COp.initOp true (some 0))) initialReg
  have h1 : initialReg.nextRepoID = 1 := rfl
  rw [hcount, h1] at hform
  have hmem : (-(2 ^ 31) : Int) ∈
      issuedInts initialReg (List.replicate (2 ^ 31) (COp.initOp true (some 0))) := by
    rw [hform]
    refine List.mem_map.mpr ⟨2 ^ 31 - 1, List.mem_range.mpr (by norm_num), ?_⟩
    have harg : (1 : Nat) + (2 ^ 31 - 1) = 2 ^ 31 := by norm_num
    rw [harg]
    unfold toCInt
    norm_num
  refine ⟨hmem, fun hall => ?_⟩
  have := hall _ hmem
  norm_num at this

/-- C5 amended: as long as fewer than 2^31 successful creates have
happened in the process, the handles returned by successful
restic_init/restic_open calls are strictly increasing, positive,
pairwise distinct, and start at 1; beyond 2^31 creates the C.int
conversion of the 64-bit counter wraps and the guarantee is lost. -/
theorem c5_handles_increasing (t : List COp) (hb : countCreates t < 2 ^ 31) :
    List.Chain' (fun a b : Int => a < b) (issuedInts initialReg t) ∧
    (∀ x ∈ issuedInts initialReg t, 0 < x) ∧
    (issuedInts initialReg t).Nodup ∧
    (∀ y, (issuedInts initialReg t).head? = some y → y = 1) := by
  have hform := issuedInts_closed t initialReg
  have h1 : initialReg.nextRepoID = 1 := rfl
  rw [h1] at hform
  have hsm : ∀ i ∈ List.range (countCreates t),
      toCInt (1 + i) = ((1 + i : Nat) : Int) := by
    intro i hi
    have hi2 : i < countCreates t := List.mem_range.mp hi
    exact toCInt_small _ (by omega)
  rw [List.map_congr_left hsm] at hform
  have hpw : (List.range (countCreates t)).Pairwise
      (fun a b : Nat => ((1 + a : Nat) : Int) < ((1 + b : Nat) : Int)) := by
    have hr := List.pairwise_lt_range (countCreates t)
    exact hr.imp (fun hab => by exact_mod_cast Nat.add_lt_add_left hab 1)
  refine ⟨?_, ?_, ?_, ?_⟩
  · rw [hform]
    exact List.Pairwise.chain' (List.pairwise_map.mpr hpw)
  · intro x hx
    rw [hform] at hx
    rcases List.mem_map.mp hx with ⟨i, _, rfl⟩
    exact_mod_cast Nat.succ_le_of_lt (by omega)
  · rw [hform]
    exact (List.pairwise_map.mpr hpw).imp (fun hlt => ne_of_lt hlt)
  · intro y hy
    rw [hform] at hy
    cases hn : countCreates t with
    | zero => rw [hn] at hy; simp at hy
    | succ n =>
      rw [hn, List.range_succ_eq_map, List.map_cons] at hy
      simp only [List.head?_cons, Option.some.injEq] at hy
      omega

/-- C5 amended witness: a trace with two successful creates separated by
a failed open and a close issues exactly the handles 1 and 2. -/
theorem c5_handles_increasing_witness :
    List.Chain' (fun a b : Int => a < b)
      (issuedInts initialReg
        [COp.initOp true (some 1), COp.openOp true none, COp.closeOp 1,
          COp.openOp true (some 2)]) ∧
    (∀ x ∈ issuedInts initialReg
        [COp.initOp true (some 1), COp.openOp true none, COp.closeOp 1,
          COp.openOp true (some 2)], 0 < x) ∧
    (issuedInts initialReg
      [COp.initOp true (some 1), COp.openOp true none, COp.closeOp 1,
        COp.openOp true (some 2)]).Nodup ∧
    (∀ y, (issuedInts initialReg
        [COp.initOp true (some 1), COp.openOp true none, COp.closeOp 1,
          COp.openOp true (some 2)]).head? = some y → y = 1) :=
  c5_handles_increasing
    [COp.initOp true (some 1), COp.openOp true none, COp.closeOp 1,
      COp.openOp true (some 2)] (by decide)

/-- C3 counterexample: on two distinct snapshots with equal times the
sort.Slice contract admits the reversed order, so Snapshots is not
guaranteed to keep equal-time snapshots in their original relative
order — the claimed stable sort does not hold of the code, which calls
the explicitly non-stable sort.Slice rather than sort.SliceStable. -/
theorem c3_counterexample :
    snapshotsResult (fun _ => none)
      { hosts := [], paths := [], tags := [], since := none, untilT := none,
        limit := 0 }
      [⟨"a", 5, [], "h", "u", []⟩, ⟨"b", 5, [], "h", "u", []⟩]
      [⟨"b", 5, [], "h", "u", []⟩, ⟨"a", 5, [], "h", "u", []⟩] ∧
    (⟨"a", 5, [], "h", "u", []⟩ : Snap) ≠ ⟨"b", 5, [], "h", "u", []⟩ ∧
    (⟨"a", 5, [], "h", "u", []⟩ : Snap).time = (⟨"b", 5, [], "h", "u", []⟩ : Snap).time ∧
    [(⟨"b", 5, [], "h", "u", []⟩ : Snap), ⟨"a", 5, [], "h", "u", []⟩] ≠
      [⟨"a", 5, [], "h", "u", []⟩, ⟨"b", 5, [], "h", "u", []⟩] := by
  refine ⟨?_, by decide, by decide, by decide⟩
  refine ⟨[⟨"b", 5, [], "h", "u", []⟩, ⟨"a", 5, [], "h", "u", []⟩], ⟨?_, ?_⟩, ?_⟩
  · have hf : ([⟨"a", 5, [], "h", "u", []⟩, ⟨"b", 5, [], "h", "u", []⟩] :
        List Snap).filter
        (fun sn => matchesFilter (fun _ => none) sn
          { hosts := [], paths := [], tags := [], since := none,
            untilT := none, limit := 0 }) =
        [⟨"a", 5, [], "h", "u", []⟩, ⟨"b", 5, [], "h", "u", []⟩] := by decide
    rw [hf]
    exact List.Perm.swap _ _ []
  · decide
  · decide

/-- C3 amended: every result the Snapshots operation can return consists
of matching snapshots sorted by creation time descending (the relative
order of equal-time snapshots is unspecified, since sort.Slice is not a
stable sort), truncated to filter.limit elements exactly when limit > 0
and more snapshots matched, with no truncation when limit is 0 or
negative. -/
theorem c3_snapshots_sorted (parseTime : String → Option Int)
    (filter : SnapshotFilter) (loaded result : List Snap)
    (hres : snapshotsResult parseTime filter loaded result) :
    result.Pairwise (fun a b => ¬ (a.time < b.time)) ∧
    (∀ x ∈ result,
      x ∈ loaded.filter (fun sn => matchesFilter parseTime sn filter)) ∧
    (0 < filter.limit →
      (result.length : Int) =
        min filter.limit
          ((loaded.filter (fun sn => matchesFilter parseTime sn filter)).length : Int)) ∧
    (filter.limit ≤ 0 →
      result.Perm (loaded.filter (fun sn => matchesFilter parseTime sn filter))) := by
  rcases hres with ⟨sorted, ⟨hperm, hsorted⟩, hdef⟩
  have hsorted2 : sorted.Pairwise (fun a b => ¬ (a.time < b.time)) := by
    refine hsorted.imp ?_
    intro a b hab
    simpa [snapshotsSortLess] using hab
  have hsub : result.Sublist sorted := by
    rw [hdef]
    by_cases hc : 0 < filter.limit ∧ filter.limit < (sorted.length : Int)
    · rw [if_pos hc]
      exact List.take_sublist _ _
    · rw [if_neg hc]
  have hlen : sorted.length =
      (loaded.filter (fun sn => matchesFilter parseTime sn filter)).length :=
    hperm.length_eq.symm
  refine ⟨hsorted2.sublist hsub, ?_, ?_, ?_⟩
  · intro x hx
    exact hperm.symm.subset (hsub.subset hx)
  · intro hlim
    rw [hdef]
    by_cases hc : 0 < filter.limit ∧ filter.limit < (sorted.length : Int)
    · rw [if_pos hc]
      rw [List.length_take, ← hlen]
      rcases hc with ⟨hc1, hc2⟩
      have htn : (filter.limit.toNat : Int) = filter.limit := Int.toNat_of_nonneg (le_of_lt hc1)
      have hmin : min filter.limit.toNat sorted.length = filter.limit.toNat := by
        apply min_eq_left
        omega
      rw [hmin]
      omega
    · rw [if_neg hc]
      rw [← hlen]
      have hge : (sorted.length : Int) ≤ filter.limit := by
        by_contra hlt
        exact hc ⟨hlim, by omega⟩
      omega
  · intro hlim
    rw [hdef, if_neg (by omega)]
    exact hperm.symm

/-- C3 amended witness: three matching snapshots with limit 2 give back
the two most recent, sorted descending. -/
theorem c3_snapshots_sorted_witness :
    ([(⟨"s2", 3, [], "h", "u", []⟩ : Snap), ⟨"s3", 2, [], "h", "u", []⟩] :
        List Snap).Pairwise (fun a b => ¬ (a.time < b.time)) ∧
    (∀ x ∈ ([(⟨"s2", 3, [], "h", "u", []⟩ : Snap), ⟨"s3", 2, [], "h", "u", []⟩] :
        List Snap),
      x ∈ ([⟨"s1", 1, [], "h", "u", []⟩, ⟨"s2", 3, [], "h", "u", []⟩,
          ⟨"s3", 2, [], "h", "u", []⟩] : List Snap).filter
        (fun sn => matchesFilter (fun _ => none) sn
          { hosts := [], paths := [], tags := [], since := none,
            untilT := none, limit := 2 })) ∧
    (0 < (⟨[], [], [], none, none, 2⟩ : SnapshotFilter).limit →
      ((([(⟨"s2", 3, [], "h", "u", []⟩ : Snap), ⟨"s3", 2, [], "h", "u", []⟩] :
          List Snap).length : Int) =
        min (⟨[], [], [], none, none, 2⟩ : SnapshotFilter).limit
          ((([⟨"s1", 1, [], "h", "u", []⟩, ⟨"s2", 3, [], "h", "u", []⟩,
              ⟨"s3", 2, [], "h", "u", []⟩] : List Snap).filter
            (fun sn => matchesFilter (fun _ => none) sn
              { hosts := [], paths := [], tags := [], since := none,
                untilT := none, limit := 2 })).length : Int))) ∧
    ((⟨[], [], [], none, none, 2⟩ : SnapshotFilter).limit ≤ 0 →
      ([(⟨"s2", 3, [], "h", "u", []⟩ : Snap), ⟨"s3", 2, [], "h", "u", []⟩] :
          List Snap).Perm
        (([⟨"s1", 1, [], "h", "u", []⟩, ⟨"s2", 3, [], "h", "u", []⟩,
            ⟨"s3", 2, [], "h", "u", []⟩] : List Snap).filter
          (fun sn => matchesFilter (fun _ => none) sn
            { hosts := [], paths := [], tags := [], since := none,
              untilT := none, limit := 2 }))) := by
  apply c3_snapshots_sorted (fun _ => none)
    { hosts := [], paths := [], tags := [], since := none, untilT := none,
      limit := 2 }
    [⟨"s1", 1, [], "h", "u", []⟩, ⟨"s2", 3, [], "h", "u", []⟩,
      ⟨"s3", 2, [], "h", "u", []⟩]
  refine ⟨[⟨"s2", 3, [], "h", "u", []⟩, ⟨"s3", 2, [], "h", "u", []⟩,
      ⟨"s1", 1, [], "h", "u", []⟩], ⟨?_, ?_⟩, ?_⟩
  · have hf : ([⟨"s1", 1, [], "h", "u", []⟩, ⟨"s2", 3, [], "h", "u", []⟩,
        ⟨"s3", 2, [], "h", "u", []⟩] : List Snap).filter
        (fun sn => matchesFilter (fun _ => none) sn
          { hosts := [], paths := [], tags := [], since := none,
            untilT := none, limit := 2 }) =
        [⟨"s1", 1, [], "h", "u", []⟩, ⟨"s2", 3, [], "h", "u", []⟩,
          ⟨"s3", 2, [], "h", "u", []⟩] := by decide
    rw [hf]
    refine List.Perm.trans (List.Perm.swap _ _ _) ?_
    exact List.Perm.cons _ (List.Perm.swap _ _ _)
  · decide
  · decide

/-- Evaluation checks of the embedded filepath.Match against the
documented behavior of the Go matcher on representative patterns:
stars do not cross separators, question marks match single
non-separator characters, character classes support ranges and
negation, and a malformed pattern counts as a non-match at the
facade's call sites. -/
theorem goMatchStr_behavior :
    goMatchStr "*.txt" "a.txt" = true ∧
    goMatchStr "*.txt" "a.log" = false ∧
    goMatchStr "a/*" "a/b" = true ∧
    goMatchStr "a/*" "b" = false ∧
    goMatchStr "*" "a/b" = false ∧
    goMatchStr "?" "a" = true ∧
    goMatchStr "?" "/" = false ∧
    goMatchStr "[a-c]" "b" = true ∧
    goMatchStr "[^a]" "b" = true ∧
    goMatchStr "[^a]" "a" = false ∧
    goMatchStr "[" "a" = false ∧
    goMatchStr "a*b" "aXYb" = true ∧
    goMatchStr "a*b" "aX/Yb" = false := by
  decide

/-- Evaluation checks of the embedded filepath.Base. -/
theorem goBase_behavior :
    goBase "a/b" = "b" ∧ goBase "a/b/" = "b" ∧ goBase "" = "." ∧
    goBase "///" = "/" ∧ goBase "abc" = "abc" := by
  decide

/-- Evaluation checks of the two selection filters on the spec's own
examples: the restore filter prunes secret/x under exclude secret/*,
while the backup filter, matching only base names, does not. -/
theorem selectFilter_behavior :
    restoreSelectFilter ["*.txt"] [] "a.txt" false = (true, true) ∧
    restoreSelectFilter ["*.txt"] [] "a.log" false = (false, true) ∧
    restoreSelectFilter [] ["secret/*"] "secret/x" false = (false, false) ∧
    backupSelectByName [] ["secret/*"] "secret/x" = true := by
  decide

end Restic
